import Mathlib

/-!
Verification development for the meshcore-cli core (src/meshcore/mclib.py):
the stream frame codec (SerialConnection / TCPConnection), the MeshCore
dispatcher state machine, and the synchronization primitives around it.

Modelling conventions:
* Python bytes / bytearray values are `List Nat` (each entry a byte value).
* Python str values are `List Nat` of character codes; bytes.decode() is the
  identity on the byte list (the payloads of interest are ASCII), and
  .replace("\x5c0","") removes the zero codes.
* int.from_bytes(_, 'little') is `fromLE`; the signed variant is `fromLEs`.
* Python float divisions by 1e6 / 1e3 / 4 are exact rational divisions in ℚ.
* asyncio futures are `Option`-valued slots: `none` is an unresolved future,
  `some v` is a resolved one; Future.set_result on an already-resolved future
  raises InvalidStateError, modelled by returning `none` (the exception
  propagates out of the callback, so no post-exception state is observable).
* Functions that can raise (IndexError on `data[i]`, InvalidStateError)
  return `Option`; Python slices `data[a:b]` never raise and are total.
-/

/-- int.from_bytes(bs, byteorder='little') on a byte list. -/
def fromLE : List Nat → Nat
  | [] => 0
  | b :: bs => b + 256 * fromLE bs

/-- int.from_bytes(bs, signed=True) on a byte list (two's complement). -/
def fromLEs (bs : List Nat) : Int :=
  let n := fromLE bs
  if 2 * n < 2 ^ (8 * bs.length) then (n : Int) else (n : Int) - 2 ^ (8 * bs.length)

/-- size.to_bytes(2, byteorder="little"). -/
def toLE2 (n : Nat) : List Nat := [n % 256, n / 256 % 256]

/-- Python slice data[a:b] (never raises; clamps at the end of the list). -/
def pySlice (d : List Nat) (a b : Nat) : List Nat := (d.drop a).take (b - a)

/-- bytes.hex() : each byte becomes two lowercase hex character codes. -/
def hexDigit (n : Nat) : Nat := if n < 10 then 48 + n else 87 + n

/-- bytes.hex() over a byte list, as a list of character codes. -/
def pyhex (bs : List Nat) : List Nat :=
  bs.foldr (fun b acc => hexDigit (b / 16 % 16) :: hexDigit (b % 16) :: acc) []

/-- A string literal as a list of character codes. -/
def strCodes (s : String) : List Nat := s.toList.map Char.toNat

/-- bytes.decode().replace("\x5c0","") : drop NUL codes from the byte list. -/
def pyDecode0 (bs : List Nat) : List Nat := bs.filter (fun b => b ≠ 0)

/-! ## The stream frame codec

SerialConnection and TCPConnection carry the same four fields of codec
state (mclib.py lines 27-30 and 104-107) and their handle_rx bodies
(lines 69-91 and 140-162) are textually identical, so both are embedded
by the single recursive function StreamCodec.handle_rx below.
-/

/-- The codec state of SerialConnection.__init__ / TCPConnection.__init__:
frame_started, frame_size, header (bytes accumulated towards the 3-byte
header) and inframe (payload bytes accumulated so far). -/
structure CodecState where
  frame_started : Bool
  frame_size : Nat
  header : List Nat
  inframe : List Nat
deriving DecidableEq

namespace StreamCodec

/-- Embeds SerialConnection.handle_rx (lines 69-91) and TCPConnection.handle_rx
(lines 140-162), which are textually identical.  Besides the final codec state
it returns the list of complete frames passed to self.mc.handle_rx, in order.
On states reachable from a fresh connection the header always holds at most
2 bytes and inframe at most frame_size bytes, so the truncated Nat
subtractions below agree with Python's slice arithmetic. -/
def handle_rx (s : CodecState) (data : List Nat) : CodecState × List (List Nat) :=
  if hs : s.frame_started = false then  -- wait start of frame
    if h3 : 3 - s.header.length ≤ data.length then
      let header2 := s.header ++ data.take (3 - s.header.length)
      let s2 : CodecState := ⟨true, fromLE (header2.drop 1), header2, s.inframe⟩
      handle_rx s2 (data.drop (3 - s.header.length))
    else
      (⟨s.frame_started, s.frame_size, s.header ++ data, s.inframe⟩, [])
  else
    if hlt : s.inframe.length + data.length < s.frame_size then
      (⟨s.frame_started, s.frame_size, s.header, s.inframe ++ data⟩, [])
    else
      let frame := s.inframe ++ data.take (s.frame_size - s.inframe.length)
      if hgt : s.frame_size < s.inframe.length + data.length then
        let r := handle_rx ⟨false, s.frame_size, [], []⟩
                   (data.drop (s.frame_size - s.inframe.length))
        (r.1, frame :: r.2)
      else
        (⟨false, s.frame_size, [], []⟩, [frame])
termination_by
  3 * data.length + (if s.frame_started then 1 else if 3 ≤ s.header.length then 2 else 0)
decreasing_by
  · simp only [List.length_drop, if_true, hs, Bool.false_eq_true, if_false]
    split_ifs <;> omega
  · have hb : s.frame_started = true := by
      revert hs; cases s.frame_started <;> simp
    simp only [List.length_drop, List.length_nil, hb, if_true]
    norm_num
    omega

/-- Header still incomplete and too little data: accumulate into header. -/
theorem handle_rx_acc (s : CodecState) (d : List Nat) (hs : s.frame_started = false)
    (h : ¬ 3 - s.header.length ≤ d.length) :
    handle_rx s d = (⟨s.frame_started, s.frame_size, s.header ++ d, s.inframe⟩, []) := by
  rw [handle_rx.eq_def]
  simp [hs, h]

/-- Enough data to complete the 3-byte header: parse it and continue. -/
theorem handle_rx_parse (s : CodecState) (d : List Nat) (hs : s.frame_started = false)
    (h : 3 - s.header.length ≤ d.length) :
    handle_rx s d =
      handle_rx
        ⟨true, fromLE ((s.header ++ d.take (3 - s.header.length)).drop 1),
          s.header ++ d.take (3 - s.header.length), s.inframe⟩
        (d.drop (3 - s.header.length)) := by
  conv_lhs => rw [handle_rx.eq_def]
  simp [hs, h]

/-- Inside a frame, not enough data to finish it: accumulate into inframe. -/
theorem handle_rx_fill (s : CodecState) (d : List Nat) (hs : s.frame_started = true)
    (h : s.inframe.length + d.length < s.frame_size) :
    handle_rx s d = (⟨s.frame_started, s.frame_size, s.header, s.inframe ++ d⟩, []) := by
  rw [handle_rx.eq_def]
  simp [hs, h]

/-- Inside a frame, data finishes it exactly: deliver the frame and reset. -/
theorem handle_rx_exact (s : CodecState) (d : List Nat) (hs : s.frame_started = true)
    (h1 : ¬ s.inframe.length + d.length < s.frame_size)
    (h2 : ¬ s.frame_size < s.inframe.length + d.length) :
    handle_rx s d =
      (⟨false, s.frame_size, [], []⟩,
        [s.inframe ++ d.take (s.frame_size - s.inframe.length)]) := by
  rw [handle_rx.eq_def]
  simp [hs, h1, h2]

/-- Inside a frame, data runs past its end: deliver the frame, reset, recurse. -/
theorem handle_rx_over (s : CodecState) (d : List Nat) (hs : s.frame_started = true)
    (h1 : ¬ s.inframe.length + d.length < s.frame_size)
    (h2 : s.frame_size < s.inframe.length + d.length) :
    handle_rx s d =
      ((handle_rx ⟨false, s.frame_size, [], []⟩
          (d.drop (s.frame_size - s.inframe.length))).1,
        (s.inframe ++ d.take (s.frame_size - s.inframe.length)) ::
        (handle_rx ⟨false, s.frame_size, [], []⟩
          (d.drop (s.frame_size - s.inframe.length))).2) := by
  conv_lhs => rw [handle_rx.eq_def]
  simp [hs, h1, h2]

/-- The termination measure of handle_rx, reused for induction in proofs. -/
def mu (s : CodecState) (data : List Nat) : Nat :=
  3 * data.length + (if s.frame_started then 1 else if 3 ≤ s.header.length then 2 else 0)

theorem mu_parse_lt (s : CodecState) (d : List Nat) (hs : s.frame_started = false)
    (h3 : 3 - s.header.length ≤ d.length) (z : Nat) (hdr inf : List Nat) :
    mu ⟨true, z, hdr, inf⟩ (d.drop (3 - s.header.length)) < mu s d := by
  simp only [mu, List.length_drop, hs, if_true, Bool.false_eq_true, if_false]
  split_ifs <;> omega

theorem mu_reset_lt (s : CodecState) (d : List Nat) (hs : s.frame_started = true)
    (z c : Nat) :
    mu ⟨false, z, [], []⟩ (d.drop c) < mu s d := by
  simp only [mu, List.length_drop, hs, if_true, Bool.false_eq_true, if_false,
    List.length_nil]
  norm_num
  omega

/-- Stream decomposition: feeding a ++ b is feeding a, then feeding b from the
resulting codec state; the delivered frames concatenate.  This is the property
that makes handle_rx insensitive to how the byte stream is chunked. -/
theorem handle_rx_append (s : CodecState) (a b : List Nat) :
    handle_rx s (a ++ b)
      = ((handle_rx (handle_rx s a).1 b).1,
         (handle_rx s a).2 ++ (handle_rx (handle_rx s a).1 b).2) := by
  suffices H : ∀ n s a b, mu s a ≤ n →
      handle_rx s (a ++ b)
        = ((handle_rx (handle_rx s a).1 b).1,
           (handle_rx s a).2 ++ (handle_rx (handle_rx s a).1 b).2) from
    H (mu s a) s a b le_rfl
  intro n
  induction n using Nat.strong_induction_on with
  | _ n ih =>
    intro s a b hn
    by_cases hs : s.frame_started = false
    · by_cases h3 : 3 - s.header.length ≤ a.length
      · -- the header completes inside a
        have h3' : 3 - s.header.length ≤ (a ++ b).length := by
          simp only [List.length_append]; omega
        rw [handle_rx_parse s (a ++ b) hs h3', handle_rx_parse s a hs h3]
        rw [List.take_append_of_le_length h3]
        rw [show (a ++ b).drop (3 - s.header.length)
              = a.drop (3 - s.header.length) ++ b by
            rw [List.drop_append_eq_append_drop, Nat.sub_eq_zero_of_le h3,
              List.drop_zero]]
        exact ih _ (Nat.lt_of_lt_of_le (mu_parse_lt s a hs h3 _ _ _) hn) _ _ b le_rfl
      · -- a alone cannot complete the header
        rw [handle_rx_acc s a hs h3]
        by_cases h3' : 3 - s.header.length ≤ (a ++ b).length
        · -- but a ++ b can
          simp only [List.length_append] at h3'
          have hacc : 3 - (s.header ++ a).length ≤ b.length := by
            simp only [List.length_append]; omega
          rw [handle_rx_parse s (a ++ b) hs (by simp only [List.length_append]; omega),
            handle_rx_parse ⟨s.frame_started, s.frame_size, s.header ++ a, s.inframe⟩
              b hs hacc]
          have ha : a.length ≤ 3 - s.header.length := by omega
          have e1 : (a ++ b).take (3 - s.header.length)
              = a ++ b.take (3 - (s.header ++ a).length) := by
            rw [List.take_append_eq_append_take, List.take_of_length_le ha]
            simp only [List.length_append]
            rw [Nat.sub_sub]
          have e2 : (a ++ b).drop (3 - s.header.length)
              = b.drop (3 - (s.header ++ a).length) := by
            rw [List.drop_append_eq_append_drop, List.drop_of_length_le ha]
            simp only [List.length_append, List.nil_append]
            rw [Nat.sub_sub]
          rw [e1, e2]
          simp [List.append_assoc]
        · -- and neither can a ++ b
          rw [handle_rx_acc s (a ++ b) hs h3',
            handle_rx_acc ⟨s.frame_started, s.frame_size, s.header ++ a, s.inframe⟩ b hs
              (by simp only [List.length_append] at h3' ⊢; omega)]
          simp [List.append_assoc]
    · have hst : s.frame_started = true := by
        revert hs; cases s.frame_started <;> simp
      by_cases h1 : s.inframe.length + a.length < s.frame_size
      · -- the current frame swallows all of a
        rw [handle_rx_fill s a hst h1]
        by_cases h1' : s.inframe.length + (a ++ b).length < s.frame_size
        · -- and all of b as well
          rw [handle_rx_fill s (a ++ b) hst h1',
            handle_rx_fill ⟨s.frame_started, s.frame_size, s.header, s.inframe ++ a⟩ b hst
              (by simp only [List.length_append] at h1' ⊢; omega)]
          simp [List.append_assoc]
        · -- the frame ends inside b
          have hal : a.length ≤ s.frame_size - s.inframe.length := by omega
          have e1 : (a ++ b).take (s.frame_size - s.inframe.length)
              = a ++ b.take (s.frame_size - (s.inframe ++ a).length) := by
            rw [List.take_append_eq_append_take, List.take_of_length_le hal]
            simp only [List.length_append]
            rw [Nat.sub_sub]
          have e2 : (a ++ b).drop (s.frame_size - s.inframe.length)
              = b.drop (s.frame_size - (s.inframe ++ a).length) := by
            rw [List.drop_append_eq_append_drop, List.drop_of_length_le hal]
            simp only [List.length_append, List.nil_append]
            rw [Nat.sub_sub]
          by_cases h2 : s.frame_size < s.inframe.length + (a ++ b).length
          · rw [handle_rx_over s (a ++ b) hst h1' h2,
              handle_rx_over ⟨s.frame_started, s.frame_size, s.header, s.inframe ++ a⟩ b
                hst (by simp only [List.length_append] at h1' ⊢; omega)
                (by simp only [List.length_append] at h2 ⊢; omega)]
            rw [e1, e2]
            simp [List.append_assoc]
          · rw [handle_rx_exact s (a ++ b) hst h1' h2,
              handle_rx_exact ⟨s.frame_started, s.frame_size, s.header, s.inframe ++ a⟩ b
                hst (by simp only [List.length_append] at h1' ⊢; omega)
                (by simp only [List.length_append] at h2 ⊢; omega)]
            rw [e1]
            simp [List.append_assoc]
      · by_cases h2 : s.frame_size < s.inframe.length + a.length
        · -- the frame ends strictly inside a: recursion on the leftover of a
          rw [handle_rx_over s a hst h1 h2]
          have hc : s.frame_size - s.inframe.length ≤ a.length := by omega
          rw [handle_rx_over s (a ++ b) hst
            (by simp only [List.length_append]; omega)
            (by simp only [List.length_append]; omega)]
          rw [List.take_append_of_le_length hc]
          rw [show (a ++ b).drop (s.frame_size - s.inframe.length)
                = a.drop (s.frame_size - s.inframe.length) ++ b by
              rw [List.drop_append_eq_append_drop, Nat.sub_eq_zero_of_le hc,
                List.drop_zero]]
          rw [ih _ (Nat.lt_of_lt_of_le (mu_reset_lt s a hst _ _) hn) _ _ b le_rfl]
          simp
        · -- the frame ends exactly at the end of a
          rw [handle_rx_exact s a hst h1 h2]
          have hc : s.frame_size - s.inframe.length = a.length := by omega
          cases b with
          | nil =>
            rw [List.append_nil, handle_rx_exact s a hst h1 h2,
              handle_rx_acc ⟨false, s.frame_size, [], []⟩ [] rfl (by simp)]
            simp
          | cons x xs =>
            rw [handle_rx_over s (a ++ x :: xs) hst
              (by simp only [List.length_append, List.length_cons]; omega)
              (by simp only [List.length_append, List.length_cons]; omega)]
            rw [hc, List.take_left, List.drop_left]
            simp

/-- Feeding a list of chunks through handle_rx one data_received call at a
time, from codec state s, accumulating every frame delivered to the
dispatcher. -/
def processChunksFrom (s : CodecState) (chunks : List (List Nat)) :
    CodecState × List (List Nat) :=
  chunks.foldl (fun acc c => ((handle_rx acc.1 c).1, acc.2 ++ (handle_rx acc.1 c).2))
    (s, [])

theorem processChunksFrom_go (cs : List (List Nat)) :
    ∀ (c : List Nat) (s : CodecState) (out : List (List Nat)),
      (c :: cs).foldl
          (fun acc c => ((handle_rx acc.1 c).1, acc.2 ++ (handle_rx acc.1 c).2))
          (s, out)
        = ((handle_rx s ((c :: cs).flatten)).1,
            out ++ (handle_rx s ((c :: cs).flatten)).2) := by
  induction cs with
  | nil =>
    intro c s out
    simp [List.flatten]
  | cons c2 cs' ih =>
    intro c s out
    have hflat : ((c :: c2 :: cs').flatten : List Nat) = c ++ (c2 :: cs').flatten := by
      simp [List.flatten]
    rw [List.foldl_cons, hflat, handle_rx_append]
    rw [ih c2 (handle_rx s c).1 (out ++ (handle_rx s c).2)]
    simp [List.append_assoc]

end StreamCodec

/-- One stream frame on the wire: marker byte, u16 little-endian length,
payload — the shape SerialConnection.send / TCPConnection.send
(lines 93-97 and 164-167) write with marker 0x3c. -/
def encodeFrame (f : Nat × List Nat) : List Nat := f.1 :: toLE2 f.2.length ++ f.2

/-- A byte stream encoding a list of frames back to back. -/
def encodeStream (frames : List (Nat × List Nat)) : List Nat :=
  (frames.map encodeFrame).flatten

theorem fromLE_toLE2 (n : Nat) (h : n < 65536) : fromLE (toLE2 n) = n := by
  simp only [toLE2, fromLE]
  omega

theorem encodeStream_eq_nil (frames : List (Nat × List Nat))
    (h : encodeStream frames = []) : frames = [] := by
  cases frames with
  | nil => rfl
  | cons f fs => simp [encodeStream, encodeFrame] at h

namespace StreamCodec

/-- Feeding a whole well-formed stream to a codec in the ready state yields
exactly the payloads, leaving the codec ready again. -/
theorem handle_rx_stream :
    ∀ (frames : List (Nat × List Nat)) (sz : Nat),
      (∀ f ∈ frames, f.2.length < 65536) →
      ∃ sz2, handle_rx ⟨false, sz, [], []⟩ (encodeStream frames)
        = (⟨false, sz2, [], []⟩, frames.map Prod.snd) := by
  intro frames
  induction frames with
  | nil =>
    intro sz _
    refine ⟨sz, ?_⟩
    rw [show encodeStream [] = [] from rfl,
      handle_rx_acc ⟨false, sz, [], []⟩ [] rfl (by simp)]
    simp
  | cons f fs ih =>
    intro sz h
    obtain ⟨m, p⟩ := f
    have hp : p.length < 65536 := h (m, p) (List.mem_cons_self _ _)
    have hstream : encodeStream ((m, p) :: fs)
        = m :: (p.length % 256) :: (p.length / 256 % 256) :: (p ++ encodeStream fs) := by
      simp [encodeStream, encodeFrame, toLE2]
    rw [hstream]
    rw [handle_rx_parse ⟨false, sz, [], []⟩ _ rfl
      (by simp only [List.length_cons]; omega)]
    simp only [List.length_nil, Nat.sub_zero, List.nil_append, List.take_succ_cons,
      List.take_zero, List.drop_succ_cons, List.drop_zero]
    have hsize : fromLE [p.length % 256, p.length / 256 % 256] = p.length := by
      simp only [fromLE]
      omega
    rw [hsize]
    cases hfs : encodeStream fs with
    | nil =>
      have : fs = [] := encodeStream_eq_nil fs hfs
      subst this
      refine ⟨p.length, ?_⟩
      rw [handle_rx_exact _ _ rfl
        (by simp) (by simp)]
      simp
    | cons y ys =>
      rw [handle_rx_over _ _ rfl
        (by simp only [List.length_append, List.length_nil, List.length_cons]; omega)
        (by simp only [List.length_append, List.length_nil, List.length_cons]; omega)]
      simp only [List.length_nil, Nat.sub_zero, List.nil_append]
      rw [List.take_left, List.drop_left, ← hfs]
      obtain ⟨sz2, heq⟩ := ih p.length (fun g hg => h g (List.mem_cons_of_mem _ hg))
      rw [heq]
      exact ⟨sz2, rfl⟩

end StreamCodec

namespace TCPConnection

/-- TCPConnection.handle_rx (mclib.py lines 140-162); its body is the shared
stream codec above. -/
def handle_rx : CodecState → List Nat → CodecState × List (List Nat) :=
  StreamCodec.handle_rx

/-- The codec fields set by TCPConnection.__init__ (lines 104-107). -/
def initState : CodecState := ⟨false, 0, [], []⟩

/-- data_received delivering each chunk to TCPConnection.handle_rx in order,
collecting the frames handed to mc.handle_rx. -/
def processChunks (chunks : List (List Nat)) : CodecState × List (List Nat) :=
  chunks.foldl
    (fun acc c => ((handle_rx acc.1 c).1, acc.2 ++ (handle_rx acc.1 c).2))
    (initState, [])

end TCPConnection

namespace SerialConnection

/-- SerialConnection.handle_rx (mclib.py lines 69-91), textually identical to
TCPConnection.handle_rx; its body is the shared stream codec above. -/
def handle_rx : CodecState → List Nat → CodecState × List (List Nat) :=
  StreamCodec.handle_rx

/-- The codec fields set by SerialConnection.__init__ (lines 27-30). -/
def initState : CodecState := ⟨false, 0, [], []⟩

/-- data_received delivering each chunk to SerialConnection.handle_rx in
order, collecting the frames handed to mc.handle_rx. -/
def processChunks (chunks : List (List Nat)) : CodecState × List (List Nat) :=
  chunks.foldl
    (fun acc c => ((handle_rx acc.1 c).1, acc.2 ++ (handle_rx acc.1 c).2))
    (initState, [])

end SerialConnection

theorem streamCodec_chunks_payloads (frames : List (Nat × List Nat))
    (chunks : List (List Nat))
    (hsz : ∀ f ∈ frames, f.2.length < 65536)
    (hstream : chunks.flatten = encodeStream frames) :
    (StreamCodec.processChunksFrom ⟨false, 0, [], []⟩ chunks).2
      = frames.map Prod.snd := by
  cases chunks with
  | nil =>
    have : frames = [] := encodeStream_eq_nil frames (by rw [← hstream]; rfl)
    subst this
    rfl
  | cons c cs =>
    obtain ⟨sz2, heq⟩ := StreamCodec.handle_rx_stream frames 0 hsz
    unfold StreamCodec.processChunksFrom
    rw [StreamCodec.processChunksFrom_go cs c ⟨false, 0, [], []⟩ [], hstream, heq]
    simp

/-- C2: for every valid byte stream encoding N marker-plus-length-prefixed
frames and every partition of that stream into chunks (splits at arbitrary
byte offsets, including inside the 3-byte header, inside a payload, and with
several frames in one chunk), feeding the chunks in order to the TCP or
serial codec handle_rx delivers exactly the same N payloads, in order, to
the dispatcher. -/
theorem c2_reassembly_invariance (frames : List (Nat × List Nat))
    (chunks : List (List Nat))
    (hsz : ∀ f ∈ frames, f.2.length < 65536)
    (hstream : chunks.flatten = encodeStream frames) :
    (TCPConnection.processChunks chunks).2 = frames.map Prod.snd
    ∧ (SerialConnection.processChunks chunks).2 = frames.map Prod.snd :=
  ⟨streamCodec_chunks_payloads frames chunks hsz hstream,
    streamCodec_chunks_payloads frames chunks hsz hstream⟩

/-- Witness for C2: two frames whose stream is split mid-header and
mid-payload. -/
theorem c2_reassembly_witness :
    (∀ f ∈ [((60 : Nat), [(7 : Nat)]), (60, [0, 5])], (Prod.snd f).length < 65536)
    ∧ ([[(60 : Nat)], [1, 0, 7, 60, 2], [0, 0, 5]].flatten
        = encodeStream [((60 : Nat), [(7 : Nat)]), (60, [0, 5])])
    ∧ ((TCPConnection.processChunks [[60], [1, 0, 7, 60, 2], [0, 0, 5]]).2
        = ([((60 : Nat), [(7 : Nat)]), (60, [0, 5])]).map Prod.snd
      ∧ (SerialConnection.processChunks [[60], [1, 0, 7, 60, 2], [0, 0, 5]]).2
        = ([((60 : Nat), [(7 : Nat)]), (60, [0, 5])]).map Prod.snd) :=
  ⟨by decide, by decide,
    c2_reassembly_invariance [(60, [7]), (60, [0, 5])]
      [[60], [1, 0, 7, 60, 2], [0, 0, 5]] (by decide) (by decide)⟩

/-! ## The MeshCore dispatcher

MeshCore.handle_rx (mclib.py lines 258-431) dispatches on the first payload
byte.  Python dict results are embedded as one structure per frame kind;
values stored with .hex() are kept as hex character-code lists via pyhex.
-/

/-- One decoded contact record (handle_rx case 3, lines 276-291). -/
structure Contact where
  public_key : List Nat
  type : Nat
  flags : Nat
  out_path_len : Int
  out_path : List Nat
  adv_name : List Nat
  last_advert : Nat
  adv_lat : ℚ
  adv_lon : ℚ
  lastmod : Nat
deriving DecidableEq

/-- The self_info record written by handle_rx case 5 (lines 294-307). -/
structure SelfIn where
  adv_type : Nat
  tx_power : Nat
  max_tx_power : Nat
  public_key : List Nat
  adv_lat : ℚ
  adv_lon : ℚ
  radio_freq : ℚ
  radio_bw : ℚ
  radio_sf : Nat
  radio_cr : Nat
  name : List Nat
deriving DecidableEq

/-- The msg-sent reply record (handle_rx case 6, lines 308-313). -/
structure MsgSentRes where
  type : Nat
  expected_ack : List Nat
  suggested_timeout : Nat
deriving DecidableEq

/-- A received-message record (handle_rx cases 7, 8, 16, 17); fields absent
from a given case keep their `none` default, mirroring the keys absent from
the Python dict.  pubkey_pre holds the "pubkey_prefix" hex string. -/
structure MsgRes where
  type : List Nat
  SNR : Option Int := none
  pubkey_pre : Option (List Nat) := none
  channel_idx : Option Nat := none
  path_len : Nat := 0
  txt_type : Nat := 0
  sender_timestamp : Nat := 0
  signature : Option (List Nat) := none
  text : List Nat := []
deriving DecidableEq

/-- The device-info reply record (handle_rx case 13, lines 368-378); the
firmware-gated fields are `none` when fw ver < 3.  fw_ver holds the
"fw ver" key. -/
structure DevInfo where
  fw_ver : Nat
  max_contacts : Option Nat := none
  max_channels : Option Nat := none
  ble_pin : Option Nat := none
  fw_build : Option (List Nat) := none
  model : Option (List Nat) := none
  ver : Option (List Nat) := none
deriving DecidableEq

/-- The status-response record (handle_rx case 0x87, lines 404-423). -/
structure StatusRes where
  pubkey_pre : List Nat
  bat : Nat
  tx_queue_len : Nat
  free_queue_len : Nat
  last_rssi : Int
  nb_recv : Nat
  nb_sent : Nat
  airtime : Nat
  uptime : Nat
  sent_flood : Nat
  sent_direct : Nat
  recv_flood : Nat
  recv_direct : Nat
  full_evts : Nat
  last_snr : ℚ
  direct_dups : Nat
  flood_dups : Nat
deriving DecidableEq

/-- A Python value a dispatcher future can be resolved with. -/
inductive PyVal where
  | vbool (b : Bool)
  | vint (n : Int)
  | verr (error_code : Nat)
  | vmsgSent (r : MsgSentRes)
  | vmsg (r : MsgRes)
  | vcontacts (m : List (List Nat × Contact))
  | vstr (s : List Nat)
  | vdevinfo (r : DevInfo)
deriving DecidableEq

/-- Python dict assignment self.contacts[k] = v: replace in place if the key
exists, else append (insertion order preserved). -/
def dictInsert : List (List Nat × Contact) → List Nat → Contact →
    List (List Nat × Contact)
  | [], k, v => [(k, v)]
  | (k', v') :: rest, k, v =>
    if k' = k then (k, v) :: rest else (k', v') :: dictInsert rest k v

/-- The dispatcher state of MeshCore.__init__ (lines 239-250): the pending
result future, contact count and cache, the self-info record, the rx
semaphore counter, the ack event flag, and the login / status futures. -/
structure MCState where
  time : Nat
  result : Option PyVal
  contact_nb : Nat
  contacts : List (List Nat × Contact)
  self_info : Option SelfIn
  rx_sem : Nat
  ack_ev : Bool
  login_resp : Option Bool
  status_resp : Option StatusRes
deriving DecidableEq

namespace MeshCore

/-- MeshCore.__init__ (lines 242-253): fresh unresolved futures, empty caches,
semaphore at 0, ack event unset. -/
def initState : MCState :=
  { time := 0, result := none, contact_nb := 0, contacts := [], self_info := none,
    rx_sem := 0, ack_ev := false, login_resp := none, status_resp := none }

/-- self.result.set_result(v): resolves the pending future; raises
InvalidStateError (none) if it is already resolved. -/
def setRes (s : MCState) (v : PyVal) : Option MCState :=
  match s.result with
  | none => some { s with result := some v }
  | some _ => none

/-- self.login_resp.set_result(b) (cases 0x85 / 0x86). -/
def setLogin (s : MCState) (b : Bool) : Option MCState :=
  match s.login_resp with
  | none => some { s with login_resp := some b }
  | some _ => none

/-- self.status_resp.set_result(res) (case 0x87). -/
def setStatus (s : MCState) (r : StatusRes) : Option MCState :=
  match s.status_resp with
  | none => some { s with status_resp := some r }
  | some _ => none

/-- handle_rx case 3 (lines 276-291): decode one contact record.  data[33]
and data[34] are bounds-unchecked indexings; all other fields come from
slices.  The path-length byte is read signed; the -1 sentinel is mapped to
an empty path while out_path_len keeps the signed value. -/
def decodeContact (data : List Nat) : Option Contact := do
  let t ← data.get? 33
  let fl ← data.get? 34
  let plen := fromLEs (pySlice data 35 36)
  let plen2 : Nat := if plen = -1 then 0 else plen.toNat
  some
    { public_key := pyhex (pySlice data 1 33), type := t, flags := fl,
      out_path_len := fromLEs (pySlice data 35 36),
      out_path := pyhex (pySlice data 36 (36 + plen2)),
      adv_name := pyDecode0 (pySlice data 100 132),
      last_advert := fromLE (pySlice data 132 136),
      adv_lat := (fromLEs (pySlice data 136 140) : ℚ) / 1000000,
      adv_lon := (fromLEs (pySlice data 140 144) : ℚ) / 1000000,
      lastmod := fromLE (pySlice data 144 148) }

/-- handle_rx case 5 (lines 294-306): decode the self-info record. -/
def decodeSelf (data : List Nat) : Option SelfIn := do
  let at_ ← data.get? 1
  let tp ← data.get? 2
  let mtp ← data.get? 3
  let sf ← data.get? 56
  let cr ← data.get? 57
  some
    { adv_type := at_, tx_power := tp, max_tx_power := mtp,
      public_key := pyhex (pySlice data 4 36),
      adv_lat := (fromLEs (pySlice data 36 40) : ℚ) / 1000000,
      adv_lon := (fromLEs (pySlice data 40 44) : ℚ) / 1000000,
      radio_freq := (fromLE (pySlice data 48 52) : ℚ) / 1000,
      radio_bw := (fromLE (pySlice data 52 56) : ℚ) / 1000,
      radio_sf := sf, radio_cr := cr,
      name := data.drop 58 }

/-- handle_rx case 6 (lines 308-313): decode the msg-sent reply. -/
def decodeMsgSent (data : List Nat) : Option MsgSentRes := do
  let t ← data.get? 1
  some { type := t, expected_ack := pySlice data 2 6,
         suggested_timeout := fromLE (pySlice data 6 10) }

/-- handle_rx case 7 (lines 314-326): contact message. -/
def decodeMsg7 (data : List Nat) : Option MsgRes := do
  let pl ← data.get? 7
  let tt ← data.get? 8
  some
    { type := strCodes "PRIV", pubkey_pre := some (pyhex (pySlice data 1 7)),
      path_len := pl, txt_type := tt,
      sender_timestamp := fromLE (pySlice data 9 13),
      signature := if tt = 2 then some (pyhex (pySlice data 13 17)) else none,
      text := if tt = 2 then data.drop 17 else data.drop 13 }

/-- handle_rx case 16 (lines 327-340): contact message with SNR prefix. -/
def decodeMsg16 (data : List Nat) : Option MsgRes := do
  let pl ← data.get? 10
  let tt ← data.get? 11
  some
    { type := strCodes "PRIV", SNR := some (fromLEs (pySlice data 1 2) * 4),
      pubkey_pre := some (pyhex (pySlice data 4 10)),
      path_len := pl, txt_type := tt,
      sender_timestamp := fromLE (pySlice data 12 16),
      signature := if tt = 2 then some (pyhex (pySlice data 16 20)) else none,
      text := if tt = 2 then data.drop 20 else data.drop 16 }

/-- handle_rx case 8 (lines 341-349): channel message. -/
def decodeMsg8 (data : List Nat) : Option MsgRes := do
  let ci ← data.get? 1
  let pl ← data.get? 2
  let tt ← data.get? 3
  some
    { type := strCodes "CHAN", channel_idx := some ci, path_len := pl,
      txt_type := tt, sender_timestamp := fromLE (pySlice data 4 8),
      text := data.drop 8 }

/-- handle_rx case 17 (lines 350-359): channel message with SNR prefix. -/
def decodeMsg17 (data : List Nat) : Option MsgRes := do
  let ci ← data.get? 4
  let pl ← data.get? 5
  let tt ← data.get? 6
  some
    { type := strCodes "CHAN", SNR := some (fromLEs (pySlice data 1 2) * 4),
      channel_idx := some ci, path_len := pl, txt_type := tt,
      sender_timestamp := fromLE (pySlice data 7 11),
      text := data.drop 11 }

/-- handle_rx case 13 (lines 368-378): device info, firmware-gated fields. -/
def decodeDevInfo (data : List Nat) : Option DevInfo := do
  let fw ← data.get? 1
  if 3 ≤ fw then do
    let mc2 ← data.get? 2
    let mch ← data.get? 3
    some
      { fw_ver := fw, max_contacts := some (mc2 * 2), max_channels := some mch,
        ble_pin := some (fromLE (pySlice data 4 8)),
        fw_build := some (pyDecode0 (pySlice data 8 20)),
        model := some (pyDecode0 (pySlice data 20 60)),
        ver := some (pyDecode0 (pySlice data 60 80)) }
  else
    some { fw_ver := fw }

/-- handle_rx case 0x87 (lines 404-423): status response (slices only). -/
def decodeStatus (data : List Nat) : StatusRes :=
  { pubkey_pre := pyhex (pySlice data 2 8),
    bat := fromLE (pySlice data 8 10),
    tx_queue_len := fromLE (pySlice data 10 12),
    free_queue_len := fromLE (pySlice data 12 14),
    last_rssi := fromLEs (pySlice data 14 16),
    nb_recv := fromLE (pySlice data 16 20),
    nb_sent := fromLE (pySlice data 20 24),
    airtime := fromLE (pySlice data 24 28),
    uptime := fromLE (pySlice data 28 32),
    sent_flood := fromLE (pySlice data 32 36),
    sent_direct := fromLE (pySlice data 36 40),
    recv_flood := fromLE (pySlice data 40 44),
    recv_direct := fromLE (pySlice data 44 48),
    full_evts := fromLE (pySlice data 48 50),
    last_snr := (fromLEs (pySlice data 50 52) : ℚ) / 4,
    direct_dups := fromLE (pySlice data 52 54),
    flood_dups := fromLE (pySlice data 54 56) }

/-- handle_rx case 0 (lines 261-265): ok reply, a u32 result when the frame
has 5 bytes, True otherwise. -/
def case_ok (s : MCState) (data : List Nat) : Option MCState :=
  if data.length = 5 then setRes s (.vint (fromLE (pySlice data 1 5)))
  else setRes s (.vbool true)

/-- handle_rx case 1 (lines 266-272): error, with code when a byte follows. -/
def case_err (s : MCState) (data : List Nat) : Option MCState :=
  if 1 < data.length then (data.get? 1).bind fun e => setRes s (.verr e)
  else setRes s (.vbool false)

/-- handle_rx case 2 (lines 273-275): contact start stores the expected count
and resets the cache. -/
def case_contact_start (s : MCState) (data : List Nat) : Option MCState :=
  some { s with contact_nb := fromLE (pySlice data 1 5), contacts := [] }

/-- handle_rx case 3 (lines 276-291): insert one decoded contact keyed by its
adv_name. -/
def case_contact (s : MCState) (data : List Nat) : Option MCState :=
  (decodeContact data).bind fun c =>
    some { s with contacts := dictInsert s.contacts c.adv_name c }

/-- handle_rx case 4 (lines 292-293): resolve the pending slot with the
accumulated cache. -/
def case_contacts_end (s : MCState) : Option MCState :=
  setRes s (.vcontacts s.contacts)

/-- handle_rx case 5 (lines 294-307): store self info, resolve with True. -/
def case_self_info (s : MCState) (data : List Nat) : Option MCState :=
  (decodeSelf data).bind fun si => setRes { s with self_info := some si } (.vbool true)

/-- handle_rx case 6 (lines 308-313). -/
def case_msg_sent (s : MCState) (data : List Nat) : Option MCState :=
  (decodeMsgSent data).bind fun r => setRes s (.vmsgSent r)

/-- handle_rx cases 7 / 8 / 16 / 17: resolve with the decoded message. -/
def case_msg (s : MCState) (dec : Option MsgRes) : Option MCState :=
  dec.bind fun r => setRes s (.vmsg r)

/-- handle_rx case 9 (lines 360-361): current time. -/
def case_time (s : MCState) (data : List Nat) : Option MCState :=
  setRes s (.vint (fromLE (pySlice data 1 5)))

/-- handle_rx case 10 (lines 362-363): no more msgs resolves with False. -/
def case_no_more_msgs (s : MCState) : Option MCState :=
  setRes s (.vbool false)

/-- handle_rx case 11 (lines 364-365): contact URI string. -/
def case_uri (s : MCState) (data : List Nat) : Option MCState :=
  setRes s (.vstr (strCodes "meshcore://" ++ pyhex (data.drop 1)))

/-- handle_rx case 12 (lines 366-367): battery voltage. -/
def case_bat (s : MCState) (data : List Nat) : Option MCState :=
  setRes s (.vint (fromLE (pySlice data 1 2)))

/-- handle_rx case 13 (lines 368-378): device info. -/
def case_devinfo (s : MCState) (data : List Nat) : Option MCState :=
  (decodeDevInfo data).bind fun r => setRes s (.vdevinfo r)

/-- handle_rx case 0x82 (lines 384-386): the ack push sets the ack event. -/
def case_ack (s : MCState) : Option MCState :=
  some { s with ack_ev := true }

/-- handle_rx case 0x83 (lines 387-389): messages-waiting push releases the
rx semaphore. -/
def case_msgs_waiting (s : MCState) : Option MCState :=
  some { s with rx_sem := s.rx_sem + 1 }

/-- handle_rx case 0x84 (lines 390-396): raw-data report; data[1] and data[2]
are indexed (so a short frame raises) but the record is only printed. -/
def case_raw (s : MCState) (data : List Nat) : Option MCState :=
  (data.get? 1).bind fun _ => (data.get? 2).bind fun _ => some s

/-- MeshCore.handle_rx (lines 258-431): dispatch on data[0].  `none` models a
raised exception (IndexError on an out-of-range index, InvalidStateError on a
doubly-resolved future); the push-only branches 0x80, 0x81, 0x88 and the
default branch only log and leave the state untouched. -/
def handle_rx (s : MCState) (data : List Nat) : Option MCState :=
  match data.get? 0 with
  | none => none  -- match data[0] raises IndexError on an empty frame
  | some op =>
    if op = 0 then case_ok s data
    else if op = 1 then case_err s data
    else if op = 2 then case_contact_start s data
    else if op = 3 then case_contact s data
    else if op = 4 then case_contacts_end s
    else if op = 5 then case_self_info s data
    else if op = 6 then case_msg_sent s data
    else if op = 7 then case_msg s (decodeMsg7 data)
    else if op = 16 then case_msg s (decodeMsg16 data)
    else if op = 8 then case_msg s (decodeMsg8 data)
    else if op = 17 then case_msg s (decodeMsg17 data)
    else if op = 9 then case_time s data
    else if op = 10 then case_no_more_msgs s
    else if op = 11 then case_uri s data
    else if op = 12 then case_bat s data
    else if op = 13 then case_devinfo s data
    else if op = 0x80 then some s  -- advertisement received: log only
    else if op = 0x81 then some s  -- code path update: log only
    else if op = 0x82 then case_ack s
    else if op = 0x83 then case_msgs_waiting s
    else if op = 0x84 then case_raw s data
    else if op = 0x85 then setLogin s true
    else if op = 0x86 then setLogin s false
    else if op = 0x87 then setStatus s (decodeStatus data)
    else if op = 0x88 then some s  -- log data: log only
    else some s  -- unhandled: log only

/-- Feeding a sequence of complete frames to MeshCore.handle_rx in order;
`none` as soon as one frame raises. -/
def processFrames (s : MCState) (fs : List (List Nat)) : Option MCState :=
  fs.foldl (fun acc f => acc.bind fun st => handle_rx st f) (some s)

end MeshCore

namespace MeshCore

/-- The opcodes MeshCore.handle_rx has a case arm for (lines 260-428),
including the log-only push opcodes. -/
def handledOps : List Nat :=
  [0, 1, 2, 3, 4, 5, 6, 7, 16, 8, 17, 9, 10, 11, 12, 13,
   0x80, 0x81, 0x82, 0x83, 0x84, 0x85, 0x86, 0x87, 0x88]

theorem setRes_eq (g s' : MCState) (v : PyVal) (h : setRes g v = some s') :
    s' = { g with result := some v } := by
  unfold setRes at h
  cases hr : g.result with
  | none => rw [hr] at h; exact (Option.some_inj.mp h).symm
  | some w => rw [hr] at h; exact Option.noConfusion h

theorem setLogin_eq (g s' : MCState) (b : Bool) (h : setLogin g b = some s') :
    s' = { g with login_resp := some b } := by
  unfold setLogin at h
  cases hr : g.login_resp with
  | none => rw [hr] at h; exact (Option.some_inj.mp h).symm
  | some w => rw [hr] at h; exact Option.noConfusion h

theorem setStatus_eq (g s' : MCState) (r : StatusRes) (h : setStatus g r = some s') :
    s' = { g with status_resp := some r } := by
  unfold setStatus at h
  cases hr : g.status_resp with
  | none => rw [hr] at h; exact (Option.some_inj.mp h).symm
  | some w => rw [hr] at h; exact Option.noConfusion h

theorem setRes_ack (g s' : MCState) (v : PyVal) (h : setRes g v = some s') :
    s'.ack_ev = g.ack_ev := by rw [setRes_eq g s' v h]

theorem setLogin_ack (g s' : MCState) (b : Bool) (h : setLogin g b = some s') :
    s'.ack_ev = g.ack_ev := by rw [setLogin_eq g s' b h]

theorem setStatus_ack (g s' : MCState) (r : StatusRes) (h : setStatus g r = some s') :
    s'.ack_ev = g.ack_ev := by rw [setStatus_eq g s' r h]

theorem case_ok_ack (s s' : MCState) (d : List Nat) (h : case_ok s d = some s') :
    s'.ack_ev = s.ack_ev := by
  unfold case_ok at h
  split_ifs at h <;> exact setRes_ack _ _ _ h

theorem case_err_ack (s s' : MCState) (d : List Nat) (h : case_err s d = some s') :
    s'.ack_ev = s.ack_ev := by
  unfold case_err at h
  split_ifs at h
  · obtain ⟨e, _, h⟩ := Option.bind_eq_some.mp h
    exact setRes_ack _ _ _ h
  · exact setRes_ack _ _ _ h

theorem case_contact_start_ack (s s' : MCState) (d : List Nat)
    (h : case_contact_start s d = some s') : s'.ack_ev = s.ack_ev := by
  unfold case_contact_start at h
  injection h with h
  subst h
  rfl

theorem case_contact_ack (s s' : MCState) (d : List Nat)
    (h : case_contact s d = some s') : s'.ack_ev = s.ack_ev := by
  unfold case_contact at h
  obtain ⟨c, _, h⟩ := Option.bind_eq_some.mp h
  injection h with h
  subst h
  rfl

theorem case_contacts_end_ack (s s' : MCState) (h : case_contacts_end s = some s') :
    s'.ack_ev = s.ack_ev := setRes_ack _ _ _ h

theorem case_self_info_ack (s s' : MCState) (d : List Nat)
    (h : case_self_info s d = some s') : s'.ack_ev = s.ack_ev := by
  unfold case_self_info at h
  obtain ⟨si, _, h⟩ := Option.bind_eq_some.mp h
  rw [setRes_ack _ _ _ h]

theorem case_msg_sent_ack (s s' : MCState) (d : List Nat)
    (h : case_msg_sent s d = some s') : s'.ack_ev = s.ack_ev := by
  unfold case_msg_sent at h
  obtain ⟨r, _, h⟩ := Option.bind_eq_some.mp h
  exact setRes_ack _ _ _ h

theorem case_msg_ack (s s' : MCState) (o : Option MsgRes)
    (h : case_msg s o = some s') : s'.ack_ev = s.ack_ev := by
  unfold case_msg at h
  obtain ⟨r, _, h⟩ := Option.bind_eq_some.mp h
  exact setRes_ack _ _ _ h

theorem case_time_ack (s s' : MCState) (d : List Nat) (h : case_time s d = some s') :
    s'.ack_ev = s.ack_ev := setRes_ack _ _ _ h

theorem case_no_more_msgs_ack (s s' : MCState) (h : case_no_more_msgs s = some s') :
    s'.ack_ev = s.ack_ev := setRes_ack _ _ _ h

theorem case_uri_ack (s s' : MCState) (d : List Nat) (h : case_uri s d = some s') :
    s'.ack_ev = s.ack_ev := setRes_ack _ _ _ h

theorem case_bat_ack (s s' : MCState) (d : List Nat) (h : case_bat s d = some s') :
    s'.ack_ev = s.ack_ev := setRes_ack _ _ _ h

theorem case_devinfo_ack (s s' : MCState) (d : List Nat)
    (h : case_devinfo s d = some s') : s'.ack_ev = s.ack_ev := by
  unfold case_devinfo at h
  obtain ⟨r, _, h⟩ := Option.bind_eq_some.mp h
  exact setRes_ack _ _ _ h

theorem case_ack_true (s s' : MCState) (h : case_ack s = some s') :
    s'.ack_ev = true := by
  unfold case_ack at h
  injection h with h
  subst h
  rfl

theorem case_msgs_waiting_ack (s s' : MCState) (h : case_msgs_waiting s = some s') :
    s'.ack_ev = s.ack_ev := by
  unfold case_msgs_waiting at h
  injection h with h
  subst h
  rfl

theorem case_raw_ack (s s' : MCState) (d : List Nat) (h : case_raw s d = some s') :
    s'.ack_ev = s.ack_ev := by
  unfold case_raw at h
  obtain ⟨x, _, h⟩ := Option.bind_eq_some.mp h
  obtain ⟨y, _, h⟩ := Option.bind_eq_some.mp h
  injection h with h
  subst h
  rfl

/-- Every branch of handle_rx leaves the ack event untouched, except the
0x82 push which sets it. -/
theorem ack_step (s s' : MCState) (d : List Nat) (h : handle_rx s d = some s') :
    s'.ack_ev = (s.ack_ev || decide (d.get? 0 = some 0x82)) := by
  cases d with
  | nil => simp [handle_rx] at h
  | cons op rest =>
    simp only [handle_rx, List.get?_cons_zero] at h
    simp only [List.get?_cons_zero]
    by_cases h0 : op = 0
    case pos => rw [if_pos h0] at h; rw [case_ok_ack _ _ _ h]; simp [h0]
    rw [if_neg h0] at h
    by_cases h1 : op = 1
    case pos => rw [if_pos h1] at h; rw [case_err_ack _ _ _ h]; simp [h1]
    rw [if_neg h1] at h
    by_cases h2 : op = 2
    case pos => rw [if_pos h2] at h; rw [case_contact_start_ack _ _ _ h]; simp [h2]
    rw [if_neg h2] at h
    by_cases h3 : op = 3
    case pos => rw [if_pos h3] at h; rw [case_contact_ack _ _ _ h]; simp [h3]
    rw [if_neg h3] at h
    by_cases h4 : op = 4
    case pos => rw [if_pos h4] at h; rw [case_contacts_end_ack _ _ h]; simp [h4]
    rw [if_neg h4] at h
    by_cases h5 : op = 5
    case pos => rw [if_pos h5] at h; rw [case_self_info_ack _ _ _ h]; simp [h5]
    rw [if_neg h5] at h
    by_cases h6 : op = 6
    case pos => rw [if_pos h6] at h; rw [case_msg_sent_ack _ _ _ h]; simp [h6]
    rw [if_neg h6] at h
    by_cases h7 : op = 7
    case pos => rw [if_pos h7] at h; rw [case_msg_ack _ _ _ h]; simp [h7]
    rw [if_neg h7] at h
    by_cases h16 : op = 16
    case pos => rw [if_pos h16] at h; rw [case_msg_ack _ _ _ h]; simp [h16]
    rw [if_neg h16] at h
    by_cases h8 : op = 8
    case pos => rw [if_pos h8] at h; rw [case_msg_ack _ _ _ h]; simp [h8]
    rw [if_neg h8] at h
    by_cases h17 : op = 17
    case pos => rw [if_pos h17] at h; rw [case_msg_ack _ _ _ h]; simp [h17]
    rw [if_neg h17] at h
    by_cases h9 : op = 9
    case pos => rw [if_pos h9] at h; rw [case_time_ack _ _ _ h]; simp [h9]
    rw [if_neg h9] at h
    by_cases h10 : op = 10
    case pos => rw [if_pos h10] at h; rw [case_no_more_msgs_ack _ _ h]; simp [h10]
    rw [if_neg h10] at h
    by_cases h11 : op = 11
    case pos => rw [if_pos h11] at h; rw [case_uri_ack _ _ _ h]; simp [h11]
    rw [if_neg h11] at h
    by_cases h12 : op = 12
    case pos => rw [if_pos h12] at h; rw [case_bat_ack _ _ _ h]; simp [h12]
    rw [if_neg h12] at h
    by_cases h13 : op = 13
    case pos => rw [if_pos h13] at h; rw [case_devinfo_ack _ _ _ h]; simp [h13]
    rw [if_neg h13] at h
    by_cases h80 : op = 128
    case pos => rw [if_pos h80] at h; injection h with h2; subst h2; simp [h80]
    rw [if_neg h80] at h
    by_cases h81 : op = 129
    case pos => rw [if_pos h81] at h; injection h with h2; subst h2; simp [h81]
    rw [if_neg h81] at h
    by_cases h82 : op = 130
    case pos => rw [if_pos h82] at h; rw [case_ack_true _ _ h]; simp [h82]
    rw [if_neg h82] at h
    by_cases h83 : op = 131
    case pos => rw [if_pos h83] at h; rw [case_msgs_waiting_ack _ _ h]; simp [h83]
    rw [if_neg h83] at h
    by_cases h84 : op = 132
    case pos => rw [if_pos h84] at h; rw [case_raw_ack _ _ _ h]; simp [h84]
    rw [if_neg h84] at h
    by_cases h85 : op = 133
    case pos => rw [if_pos h85] at h; rw [setLogin_ack _ _ _ h]; simp [h85]
    rw [if_neg h85] at h
    by_cases h86 : op = 134
    case pos => rw [if_pos h86] at h; rw [setLogin_ack _ _ _ h]; simp [h86]
    rw [if_neg h86] at h
    by_cases h87 : op = 135
    case pos => rw [if_pos h87] at h; rw [setStatus_ack _ _ _ h]; simp [h87]
    rw [if_neg h87] at h
    by_cases h88 : op = 136
    case pos => rw [if_pos h88] at h; injection h with h2; subst h2; simp [h88]
    rw [if_neg h88] at h
    injection h with h2
    subst h2
    simp [h82]
theorem processFrames_none_acc (fs : List (List Nat)) :
    fs.foldl (fun acc f => acc.bind fun st => handle_rx st f) none = none := by
  induction fs with
  | nil => rfl
  | cons f fs ih => simpa using ih

theorem processFrames_cons (s : MCState) (f : List Nat) (fs : List (List Nat)) :
    processFrames s (f :: fs)
      = (handle_rx s f).bind fun s1 => processFrames s1 fs := by
  cases hf : handle_rx s f with
  | none => simp [processFrames, hf, processFrames_none_acc]
  | some s1 => simp [processFrames, hf]

/-- Over a whole frame sequence: the ack event ends up set iff it was set
before or some delivered frame is an 0x82 push. -/
theorem processFrames_ack (fs : List (List Nat)) :
    ∀ s s2, processFrames s fs = some s2 →
      s2.ack_ev = (s.ack_ev || fs.any fun f => decide (f.get? 0 = some 0x82)) := by
  induction fs with
  | nil =>
    intro s s2 h
    simp only [processFrames, List.foldl_nil, Option.some_inj] at h
    subst h
    simp
  | cons f fs' ih =>
    intro s s2 h
    rw [processFrames_cons] at h
    simp only [Option.bind_eq_some] at h
    obtain ⟨s1, h1, h2⟩ := h
    rw [ih s1 s2 h2, ack_step s s1 f h1]
    simp [Bool.or_assoc]

end MeshCore

/-- C8: a frame whose first byte is none of the opcodes the dispatcher
handles is only logged: handle_rx returns the state unchanged, so the
pending-response slot, contact cache, self-info record, waiting-message
counter, ack flag and login/status slots are all untouched. -/
theorem c8_unknown_opcode (s : MCState) (op : Nat) (rest : List Nat)
    (h : op ∉ MeshCore.handledOps) :
    MeshCore.handle_rx s (op :: rest) = some s := by
  simp only [MeshCore.handledOps, List.mem_cons, List.not_mem_nil, or_false] at h
  push_neg at h
  obtain ⟨k0, k1, k2, k3, k4, k5, k6, k7, k16, k8, k17, k9, k10, k11, k12, k13,
    k80, k81, k82, k83, k84, k85, k86, k87, k88⟩ := h
  simp only [MeshCore.handle_rx, List.get?_cons_zero]
  rw [if_neg k0, if_neg k1, if_neg k2, if_neg k3, if_neg k4, if_neg k5, if_neg k6,
    if_neg k7, if_neg k16, if_neg k8, if_neg k17, if_neg k9, if_neg k10, if_neg k11,
    if_neg k12, if_neg k13, if_neg k80, if_neg k81, if_neg k82, if_neg k83,
    if_neg k84, if_neg k85, if_neg k86, if_neg k87, if_neg k88]

/-- Witness for C8 at the concrete unknown opcode 20. -/
theorem c8_unknown_opcode_witness :
    (20 ∉ MeshCore.handledOps)
    ∧ MeshCore.handle_rx MeshCore.initState (20 :: [1, 2, 3])
        = some MeshCore.initState :=
  ⟨by decide, c8_unknown_opcode MeshCore.initState 20 [1, 2, 3] (by decide)⟩

namespace MeshCore

/-- The self.ack_ev.clear() step of MeshCore.send_msg (line 590), performed
immediately before transmitting a direct message. -/
def send_msg_clear (s : MCState) : MCState := { s with ack_ev := false }

/-- MeshCore.wait_ack (lines 619-626) under the single-threaded cooperative
model: the frames delivered before the deadline are processed, and the wait
returns True as soon as the ack event is set; if the event is still unset
after them, asyncio.wait_for raises TimeoutError and wait_ack returns False
instead of blocking. -/
def wait_ack_outcome (s : MCState) (delivered : List (List Nat)) : Option Bool :=
  (processFrames s delivered).map fun t => t.ack_ev

end MeshCore

/-- C6: send_msg clears the ack flag immediately before transmission; a
subsequent bounded wait returns success precisely when an ack push (opcode
0x82) is among the frames delivered before the deadline, and returns failure
(False, rather than blocking) otherwise. -/
theorem c6_ack_wait (s : MCState) (fs : List (List Nat)) (s2 : MCState)
    (h : MeshCore.processFrames (MeshCore.send_msg_clear s) fs = some s2) :
    MeshCore.wait_ack_outcome (MeshCore.send_msg_clear s) fs = some s2.ack_ev
    ∧ (s2.ack_ev = true ↔ ∃ f, f ∈ fs ∧ f.get? 0 = some 0x82) := by
  constructor
  · simp [MeshCore.wait_ack_outcome, h]
  · rw [MeshCore.processFrames_ack fs (MeshCore.send_msg_clear s) s2 h]
    simp [MeshCore.send_msg_clear, List.any_eq_true]

/-- Witness for C6: a single delivered ack push makes the wait succeed. -/
theorem c6_ack_wait_witness :
    (MeshCore.processFrames (MeshCore.send_msg_clear MeshCore.initState) [[0x82]]
        = some { MeshCore.initState with ack_ev := true })
    ∧ (MeshCore.wait_ack_outcome (MeshCore.send_msg_clear MeshCore.initState) [[0x82]]
          = some ({ MeshCore.initState with ack_ev := true }).ack_ev
        ∧ (({ MeshCore.initState with ack_ev := true }).ack_ev = true
            ↔ ∃ f, f ∈ [[(0x82 : Nat)]] ∧ f.get? 0 = some 0x82)) :=
  ⟨by decide,
    c6_ack_wait MeshCore.initState [[0x82]] { MeshCore.initState with ack_ev := true }
      (by decide)⟩

namespace MeshCore

/-- A record frame of at least 35 bytes decodes (data[33] and data[34] are in
range; everything else is sliced). -/
theorem decodeContact_of_len (d : List Nat) (h : 35 ≤ d.length) :
    ∃ c, decodeContact d = some c := by
  cases h33 : d.get? 33 with
  | none => rw [List.get?_eq_none] at h33; omega
  | some t =>
    cases h34 : d.get? 34 with
    | none => rw [List.get?_eq_none] at h34; omega
    | some fl =>
      rw [List.get?_eq_getElem?] at h33 h34
      simp [decodeContact, h33, h34]

/-- The effect of one record frame on the cache: insert the decoded contact
under its adv_name. -/
def insRec (m : List (List Nat × Contact)) (f : List Nat) :
    List (List Nat × Contact) :=
  match decodeContact f with
  | some c => dictInsert m c.adv_name c
  | none => m

theorem handle_rx_start (s : MCState) (rest : List Nat) :
    handle_rx s (2 :: rest)
      = some { s with contact_nb := fromLE (pySlice (2 :: rest) 1 5),
                      contacts := [] } := by
  simp [handle_rx, case_contact_start]

theorem handle_rx_record (s : MCState) (f : List Nat) (h3 : f.get? 0 = some 3)
    (hlen : 35 ≤ f.length) :
    handle_rx s f = some { s with contacts := insRec s.contacts f } := by
  obtain ⟨rest, rfl⟩ : ∃ rest, f = 3 :: rest := by
    cases f with
    | nil => simp at h3
    | cons a rest =>
      simp only [List.get?_cons_zero, Option.some_inj] at h3
      exact ⟨rest, by rw [h3]⟩
  obtain ⟨c, hc⟩ := decodeContact_of_len _ hlen
  simp [handle_rx, case_contact, insRec, hc]

theorem handle_rx_end (s : MCState) (rest : List Nat) (hres : s.result = none) :
    handle_rx s (4 :: rest)
      = some { s with result := some (.vcontacts s.contacts) } := by
  simp [handle_rx, case_contacts_end, setRes, hres]

/-- Record frames only fold contact insertions over the cache. -/
theorem processFrames_records (recs : List (List Nat)) :
    ∀ s, (∀ f ∈ recs, f.get? 0 = some 3 ∧ 35 ≤ f.length) →
      processFrames s recs
        = some { s with contacts := recs.foldl insRec s.contacts } := by
  induction recs with
  | nil => intro s _; rfl
  | cons f recs' ih =>
    intro s h
    rw [processFrames_cons,
      handle_rx_record s f (h f (List.mem_cons_self _ _)).1 (h f (List.mem_cons_self _ _)).2]
    rw [Option.some_bind, ih _ (fun g hg => h g (List.mem_cons_of_mem _ hg))]
    rfl

theorem processFrames_append (as : List (List Nat)) :
    ∀ s bs, processFrames s (as ++ bs)
      = (processFrames s as).bind fun t => processFrames t bs := by
  induction as with
  | nil => intro s bs; rfl
  | cons a as' ih =>
    intro s bs
    rw [List.cons_append, processFrames_cons, processFrames_cons]
    cases handle_rx s a with
    | none => rfl
    | some s1 => simp only [Option.some_bind, ih]

end MeshCore

/-- C3: a contact-enumeration sequence [start, record_1 ... record_n, end]
resets the cache, inserts each decoded record under its adv_name, and
resolves the pending slot with exactly the resulting map; the final cache is
the fold of the inserts over the empty map, independent of whatever the
cache held before, so a later enumeration leaves no stale entry behind. -/
theorem c3_contact_roundtrip (s : MCState) (st e : List Nat)
    (recs : List (List Nat))
    (hst : st.get? 0 = some 2) (he : e.get? 0 = some 4) (hres : s.result = none)
    (hrecs : ∀ f ∈ recs, f.get? 0 = some 3 ∧ 35 ≤ f.length) :
    MeshCore.processFrames s (st :: (recs ++ [e]))
      = some { s with contact_nb := fromLE (pySlice st 1 5),
                      contacts := recs.foldl MeshCore.insRec [],
                      result := some (PyVal.vcontacts (recs.foldl MeshCore.insRec [])) } := by
  obtain ⟨strest, rfl⟩ : ∃ r, st = 2 :: r := by
    cases st with
    | nil => simp at hst
    | cons a r =>
      simp only [List.get?_cons_zero, Option.some_inj] at hst
      exact ⟨r, by rw [hst]⟩
  obtain ⟨erest, rfl⟩ : ∃ r, e = 4 :: r := by
    cases e with
    | nil => simp at he
    | cons a r =>
      simp only [List.get?_cons_zero, Option.some_inj] at he
      exact ⟨r, by rw [he]⟩
  rw [MeshCore.processFrames_cons, MeshCore.handle_rx_start, Option.some_bind,
    MeshCore.processFrames_append, MeshCore.processFrames_records recs _ hrecs,
    Option.some_bind]
  rw [MeshCore.processFrames_cons]
  rw [MeshCore.handle_rx_end _ erest (by simpa using hres)]
  rfl

/-- Witness for C3: one start frame, one 35-byte record, one end frame. -/
theorem c3_contact_roundtrip_witness :
    (([(2 : Nat), 1, 0, 0, 0] : List Nat).get? 0 = some 2
      ∧ ([(4 : Nat)] : List Nat).get? 0 = some 4
      ∧ MeshCore.initState.result = none
      ∧ (∀ f ∈ [(3 : Nat) :: List.replicate 34 7], f.get? 0 = some 3 ∧ 35 ≤ f.length))
    ∧ MeshCore.processFrames MeshCore.initState
        ([2, 1, 0, 0, 0] :: ([(3 : Nat) :: List.replicate 34 7] ++ [[4]]))
      = some { MeshCore.initState with
                contact_nb := fromLE (pySlice [2, 1, 0, 0, 0] 1 5),
                contacts := [(3 : Nat) :: List.replicate 34 7].foldl MeshCore.insRec [],
                result := some (PyVal.vcontacts
                  ([(3 : Nat) :: List.replicate 34 7].foldl MeshCore.insRec [])) } :=
  ⟨⟨by decide, by decide, by decide, by decide⟩,
    c3_contact_roundtrip MeshCore.initState [2, 1, 0, 0, 0] [4]
      [(3 : Nat) :: List.replicate 34 7] (by decide) (by decide) (by decide) (by decide)⟩

/-! ## The waiting-message counter (get_msg / wait_msg) -/

namespace MeshCore

/-- The rx_sem effect of MeshCore.get_msg (lines 599-604): the reply to the
fetch is returned to the caller; when the reply is the boolean False
("no more msgs", an error without code, or the 1-second timeout) the
semaphore is replaced by a fresh Semaphore(0), and otherwise — in particular
after every successful fetch of a message — the counter is left untouched. -/
def get_msg_rx_sem (rx_sem : Nat) (res : PyVal) : Nat :=
  if res = .vbool false then 0 else rx_sem

/-- MeshCore.wait_msg (lines 606-617) under the single-threaded cooperative
model: rx_sem.acquire() returns immediately iff the counter is positive,
decrementing it; at 0 the acquire suspends, the bounded wait times out and
returns False with the counter unchanged (the timeout=-1 variant blocks
instead). -/
def wait_msg (rx_sem : Nat) : Bool × Nat :=
  if 0 < rx_sem then (true, rx_sem - 1) else (false, rx_sem)

/-- k successive wait_msg acquisitions, tracking the counter. -/
def iterWait : Nat → Nat → Nat
  | 0, n => n
  | k + 1, n => iterWait k (wait_msg n).2

end MeshCore

/-- Counterexample for C4: after one messages-waiting push, one successful
fetch (a get_msg whose reply is a message, not False) leaves the counter at
1, not 0 — the decrement lives in wait_msg's semaphore acquire, not in the
fetch. -/
theorem c4_counterexample :
    MeshCore.handle_rx MeshCore.initState [0x83]
      = some { MeshCore.initState with rx_sem := 1 }
    ∧ ¬ MeshCore.get_msg_rx_sem 1 (PyVal.vmsg { type := strCodes "PRIV" }) = 0 :=
  ⟨by decide, by decide⟩

/-- C4 amended: the counter is incremented by each 0x83 push; it is
decremented by each wait_msg acquisition (not by a successful fetch, which
leaves it untouched); k acquisitions from k reach 0 and a further wait times
out with False; a get_msg reply of False forces the counter to 0 from any
value. -/
theorem c4_amended_counter :
    (∀ (s : MCState) (rest : List Nat),
        MeshCore.handle_rx s (0x83 :: rest) = some { s with rx_sem := s.rx_sem + 1 })
    ∧ (∀ n : Nat, MeshCore.wait_msg (n + 1) = (true, n))
    ∧ MeshCore.wait_msg 0 = (false, 0)
    ∧ (∀ k : Nat, MeshCore.iterWait k k = 0)
    ∧ (∀ n : Nat, MeshCore.get_msg_rx_sem n (PyVal.vbool false) = 0)
    ∧ (∀ (n : Nat) (r : MsgRes), MeshCore.get_msg_rx_sem n (PyVal.vmsg r) = n) := by
  refine ⟨?_, ?_, rfl, ?_, ?_, ?_⟩
  · intro s rest
    simp [MeshCore.handle_rx, MeshCore.case_msgs_waiting]
  · intro n
    simp [MeshCore.wait_msg]
  · intro k
    induction k with
    | zero => rfl
    | succ k ih =>
      show MeshCore.iterWait k (MeshCore.wait_msg (k + 1)).2 = 0
      have hw : (MeshCore.wait_msg (k + 1)).2 = k := by simp [MeshCore.wait_msg]
      rw [hw]
      exact ih
  · intro n
    simp [MeshCore.get_msg_rx_sem]
  · intro n r
    rw [MeshCore.get_msg_rx_sem, if_neg (fun hcon => PyVal.noConfusion hcon)]

/-- C5: a contact record whose path-length byte is the 0xFF sentinel decodes
to an empty out_path with out_path_len = -1, distinguishable from a record
whose path-length byte is 0, which also has an empty out_path but stores
out_path_len = 0. -/
theorem c5_no_path_sentinel (d1 d2 : List Nat) (c1 c2 : Contact)
    (h1 : MeshCore.decodeContact d1 = some c1)
    (h2 : MeshCore.decodeContact d2 = some c2)
    (hs1 : pySlice d1 35 36 = [255]) (hs2 : pySlice d2 35 36 = [0]) :
    c1.out_path = [] ∧ c1.out_path_len = -1
    ∧ c2.out_path = [] ∧ c2.out_path_len = 0
    ∧ c1 ≠ c2 := by
  unfold MeshCore.decodeContact at h1 h2
  obtain ⟨t1, ht1, h1⟩ := Option.bind_eq_some.mp h1
  obtain ⟨f1, hf1, h1⟩ := Option.bind_eq_some.mp h1
  obtain ⟨t2, ht2, h2⟩ := Option.bind_eq_some.mp h2
  obtain ⟨f2, hf2, h2⟩ := Option.bind_eq_some.mp h2
  injection h1 with h1
  injection h2 with h2
  subst h1 h2
  have e1 : fromLEs (pySlice d1 35 36) = -1 := by rw [hs1]; decide
  have e2 : fromLEs (pySlice d2 35 36) = 0 := by rw [hs2]; decide
  refine ⟨?_, by simp [e1], ?_, by simp [e2], ?_⟩
  · simp only [e1]
    norm_num [pySlice, pyhex]
  · simp only [e2]
    norm_num [pySlice, pyhex, Int.toNat_zero]
  · intro heq
    have := congrArg Contact.out_path_len heq
    simp [e1, e2] at this

/-- Witness for C5: 36-byte record frames whose path-length byte is 0xFF
resp. 0x00. -/
theorem c5_no_path_sentinel_witness :
    ∃ c1 c2 : Contact,
      (MeshCore.decodeContact (List.replicate 35 0 ++ [255]) = some c1
        ∧ MeshCore.decodeContact (List.replicate 35 0 ++ [0]) = some c2
        ∧ pySlice (List.replicate 35 0 ++ [255]) 35 36 = [255]
        ∧ pySlice (List.replicate 35 0 ++ [0]) 35 36 = [0])
      ∧ (c1.out_path = [] ∧ c1.out_path_len = -1
        ∧ c2.out_path = [] ∧ c2.out_path_len = 0
        ∧ c1 ≠ c2) := by
  obtain ⟨c1, hc1⟩ :=
    MeshCore.decodeContact_of_len (List.replicate 35 0 ++ [255]) (by decide)
  obtain ⟨c2, hc2⟩ :=
    MeshCore.decodeContact_of_len (List.replicate 35 0 ++ [0]) (by decide)
  exact ⟨c1, c2, ⟨hc1, hc2, by decide, by decide⟩,
    c5_no_path_sentinel (List.replicate 35 0 ++ [255]) (List.replicate 35 0 ++ [0])
      c1 c2 hc1 hc2 (by decide) (by decide)⟩

/-! ## send, its timeout value, and the pending-slot pool -/

namespace MeshCore

/-- The value a caller of MeshCore.send (lines 433-442) receives: the fresh
slot is awaited under asyncio.wait_for; if a reply resolves it with v before
the deadline the caller gets v, on TimeoutError send logs and returns False. -/
def send_result (reply : Option PyVal) : PyVal :=
  match reply with
  | some v => v
  | none => PyVal.vbool false

end MeshCore

/-- C9: the False returned by send on timeout is the very value the pending
slot is resolved with by an error reply with no error code (opcode 1, 1-byte
frame) and by a no-more-messages reply (opcode 10): all three outcomes hand
the caller the identical PyVal.vbool false. -/
theorem c9_indistinguishable_false (s : MCState) (h : s.result = none) :
    MeshCore.handle_rx s [1]
        = some { s with result := some (MeshCore.send_result none) }
    ∧ MeshCore.handle_rx s [10]
        = some { s with result := some (MeshCore.send_result none) }
    ∧ MeshCore.send_result none = PyVal.vbool false := by
  refine ⟨?_, ?_, rfl⟩
  · simp [MeshCore.handle_rx, MeshCore.case_err, MeshCore.setRes, h,
      MeshCore.send_result]
  · simp [MeshCore.handle_rx, MeshCore.case_no_more_msgs, MeshCore.setRes, h,
      MeshCore.send_result]

/-- Witness for C9 at the fresh dispatcher state. -/
theorem c9_indistinguishable_false_witness :
    MeshCore.initState.result = none
    ∧ (MeshCore.handle_rx MeshCore.initState [1]
          = some { MeshCore.initState with result := some (MeshCore.send_result none) }
      ∧ MeshCore.handle_rx MeshCore.initState [10]
          = some { MeshCore.initState with result := some (MeshCore.send_result none) }
      ∧ MeshCore.send_result none = PyVal.vbool false) :=
  ⟨rfl, c9_indistinguishable_false MeshCore.initState rfl⟩

/-- The pool of futures ever created by MeshCore.send, in creation order;
`none` entries are unresolved.  `result` is the index self.result points at. -/
structure SendModel where
  futures : List (Option PyVal)
  result : Nat
deriving DecidableEq

namespace MeshCore

/-- The slot-allocation step of MeshCore.send (line 435): self.result =
asyncio.Future() installs a fresh unresolved future as the pending slot.
Nothing checks whether the previous future is still unresolved; the
previous future is simply abandoned, never resolved or rejected. -/
def send_start (m : SendModel) : SendModel :=
  { futures := m.futures ++ [none], result := m.futures.length }

/-- set_result on the current slot, the only future handle_rx can reach. -/
def resolve_current (m : SendModel) (v : PyVal) : Option SendModel :=
  match m.futures.get? m.result with
  | some none => some { m with futures := m.futures.set m.result (some v) }
  | _ => none

/-- The number of unresolved futures in the pool. -/
def countUnresolved (m : SendModel) : Nat :=
  (m.futures.filter fun o => o = none).length

end MeshCore

/-- Counterexample for C1: a second send issued while the first is
unresolved is not rejected — send_start is total — and afterwards two
unresolved futures exist, violating "at most one unresolved request". -/
theorem c1_counterexample :
    ¬ MeshCore.countUnresolved
        (MeshCore.send_start (MeshCore.send_start ⟨[], 0⟩)) ≤ 1 := by decide

/-- C1 amended: a second send is accepted, not rejected: it appends a fresh
unresolved future and repoints the slot at it, leaving every earlier future
— including the first caller's — bitwise unchanged (so the first caller's
eventual result is never overwritten; its future is simply orphaned and the
caller times out), and the number of unresolved futures grows by one, so
more than one unresolved request can exist. -/
theorem c1_amended_send_slot (m : SendModel) :
    (MeshCore.send_start m).futures = m.futures ++ [none]
    ∧ (MeshCore.send_start m).result = m.futures.length
    ∧ MeshCore.countUnresolved (MeshCore.send_start m)
        = MeshCore.countUnresolved m + 1 := by
  refine ⟨rfl, rfl, ?_⟩
  simp [MeshCore.countUnresolved, MeshCore.send_start, List.filter_append]

/-! ## Transport disconnect handlers -/

/-- An asyncio task; cancelled is set by Task.cancel(). -/
structure PyTask where
  cancelled : Bool
deriving DecidableEq

namespace BLEConnection

/-- BLEConnection.handle_disconnect (lines 218-223): for task in
asyncio.all_tasks(): task.cancel() — "cancelling all tasks effectively ends
the program". -/
def handle_disconnect (tasks : List PyTask) : List PyTask :=
  tasks.map fun _ => ⟨true⟩

end BLEConnection

namespace TCPConnection

/-- TCPConnection.MCClientProtocol.connection_lost (lines 122-123): only
printerr("The server closed the connection"); no task is cancelled, no
pending wait is resolved. -/
def connection_lost (tasks : List PyTask) : List PyTask := tasks

end TCPConnection

namespace SerialConnection

/-- SerialConnection.MCSerialClientProtocol.connection_lost (lines 45-46):
only printerr("port closed"); no task is cancelled, no pending wait is
resolved. -/
def connection_lost (tasks : List PyTask) : List PyTask := tasks

end SerialConnection

/-- Counterexample for C7: a TCP disconnect with one outstanding
(uncancelled) wait leaves it outstanding — the handler cancels nothing, so
"for every transport, a disconnection cancels every outstanding wait" is
false. -/
theorem c7_counterexample :
    TCPConnection.connection_lost [⟨false⟩] = [⟨false⟩]
    ∧ ¬ ((TCPConnection.connection_lost [⟨false⟩]).all fun t => t.cancelled) = true :=
  ⟨rfl, by decide⟩

/-- C7 amended: only the BLE disconnect callback cancels every outstanding
task (terminating the program); the TCP and serial connection_lost handlers
only log and leave every outstanding wait untouched, so their callers are
left to their own per-wait timeouts (or block forever on an unbounded
wait). -/
theorem c7_amended_disconnect :
    (∀ tasks : List PyTask,
        ((BLEConnection.handle_disconnect tasks).all fun t => t.cancelled) = true)
    ∧ (∀ tasks : List PyTask, TCPConnection.connection_lost tasks = tasks)
    ∧ (∀ tasks : List PyTask, SerialConnection.connection_lost tasks = tasks) := by
  refine ⟨?_, fun _ => rfl, fun _ => rfl⟩
  intro tasks
  simp [BLEConnection.handle_disconnect, List.all_eq_true]

/-- Counterexample for C10: the frame [2] — a contacts-start whose u32 count
is missing, 4 bytes shorter than its branch's fixed layout — is processed by
handle_rx without raising (int.from_bytes of an empty slice is 0), so
handle_rx is not total only on frames at least as long as their opcode's
fixed layout. -/
theorem c10_counterexample :
    MeshCore.handle_rx MeshCore.initState [2] = some MeshCore.initState := by
  decide

/-- C10 amended: handle_rx raises on the empty frame (data[0] is indexed
without a bounds check) and on short frames of the fixed-offset branches
(a bare opcode-3 record frame, say), while the stream codec, trusting the
length field, delivers a zero-length frame from the header [marker, 0, 0] —
a frame handle_rx cannot process; but pure-slice branches such as opcode 2
tolerate frames shorter than their layout. -/
theorem c10_amended_partiality :
    (∀ s : MCState, MeshCore.handle_rx s [] = none)
    ∧ (∀ s : MCState, MeshCore.handle_rx s [3] = none)
    ∧ (TCPConnection.handle_rx TCPConnection.initState [60, 0, 0]).2 = [[]]
    ∧ (∀ (s : MCState) (rest : List Nat),
        MeshCore.handle_rx s (2 :: rest) ≠ none) := by
  refine ⟨fun s => rfl, fun s => rfl, ?_, ?_⟩
  · show (StreamCodec.handle_rx ⟨false, 0, [], []⟩ [60, 0, 0]).2 = [[]]
    rw [StreamCodec.handle_rx_parse _ _ rfl (by norm_num)]
    show (StreamCodec.handle_rx ⟨true, 0, [60, 0, 0], []⟩ []).2 = [[]]
    rw [StreamCodec.handle_rx_exact _ _ rfl (by norm_num) (by norm_num)]
    rfl
  · intro s rest h
    rw [MeshCore.handle_rx_start] at h
    exact Option.noConfusion h
